import Mathlib

/-!
Verification of the Chapter 4 Byzantine-fault-tolerance examples of the
sovereign-ai-stack-book repository.

The definitions below are shallow embeddings of the Rust sources
`examples/ch04-bft/src/bft_demo.rs`, `examples/ch04-bft/src/byzantine_simulation.rs`,
`examples/ch04-bft/src/dual_model.rs` and `examples/ch04-bft/src/reliability_test.rs`.

Modelling conventions:
- Machine integers are `Nat`/`Int`; where the source wraps (`i32` arithmetic in
  release mode, `u64::wrapping_mul`/`wrapping_add`) the wrap is explicit.
- `f64` values that only feed threshold comparisons are modelled as exact
  rationals: the properties proved about them (purity, which inputs the result
  depends on) are invariant under the rounding that real `f64` evaluation
  would add, because rounding is itself a deterministic function of the same
  inputs.
- For the statistics claims, whose content is NaN/Infinity behaviour at zero
  denominators, `f64` is modelled by the tagged type `F64`; its special-value
  behaviour (0/0 = NaN, x/0 = ±Inf, NaN propagation) follows IEEE 754 exactly
  (these cases involve no rounding), while finite arithmetic is kept exact.
- A `&mut self` receiver is modelled by returning the updated receiver.
-/

namespace Ch04

/-! ### Definitions: bft_demo.rs -/

/-- Rust `i32` arithmetic, modelled as `Int` reduced to the signed 32-bit
representative (release-mode wrapping semantics; the demo never overflows). -/
def i32wrap (z : Int) : Int :=
  (z + 2147483648) % 4294967296 - 2147483648

/-- `struct Node { id: usize, is_byzantine: bool }` from bft_demo.rs. -/
structure Node where
  id : Nat
  is_byzantine : Bool
deriving DecidableEq

/-- `Node::new` from bft_demo.rs. -/
def Node.new (id : Nat) (isByz : Bool) : Node :=
  { id := id, is_byzantine := isByz }

/-- `Node::process` from bft_demo.rs: a Byzantine node answers
`input * 2 + 999`, an honest node answers `input * 2`. -/
def Node.process (n : Node) (input : Int) : Int :=
  if n.is_byzantine then i32wrap (input * 2 + 999) else i32wrap (input * 2)

/-- `struct BftConsensus { nodes: Vec<Node>, fault_tolerance: usize }`. -/
structure BftConsensus where
  nodes : List Node
  fault_tolerance : Nat

/-- `BftConsensus::new`: builds `n = 3f + 1` honest nodes.  The source takes
`fault_tolerance: usize`, so a negative fault tolerance is unrepresentable;
that type-level rejection is mirrored here by `f : Nat`. -/
def BftConsensus.new (fault_tolerance : Nat) : BftConsensus :=
  { nodes := (List.range (3 * fault_tolerance + 1)).map (fun id => Node.new id false),
    fault_tolerance := fault_tolerance }

/-- `BftConsensus::set_byzantine`: marks the nodes at the listed indices
Byzantine (indices out of range are ignored, as in the source's bounds check). -/
def BftConsensus.set_byzantine (c : BftConsensus) (node_ids : List Nat) : BftConsensus :=
  { c with
    nodes := c.nodes.enum.map (fun p =>
      if node_ids.contains p.1 then { p.2 with is_byzantine := true } else p.2) }

/-- The vote multiset of `BftConsensus::consensus`: every node processes the
input (the contents of the `votes` HashMap, as a list in node order). -/
def BftConsensus.voteResults (c : BftConsensus) (input : Int) : List Int :=
  c.nodes.map (fun n => n.process input)

/-- `threshold = 2 * self.fault_tolerance + 1` from `BftConsensus::consensus`. -/
def BftConsensus.threshold (c : BftConsensus) : Nat :=
  2 * c.fault_tolerance + 1

/-- `BftConsensus::consensus` from bft_demo.rs: tally all node results and
return the first value whose vote count reaches the threshold, else `None`.
The Rust source iterates over a `HashMap` whose iteration order is
unspecified; here the distinct vote values are scanned in a fixed
(first-occurrence-derived) order.  The theorem `consensus_winner_unique`
shows at most one value can reach the threshold, so the scan order cannot
influence the result — exactly the property the source relies on. -/
def BftConsensus.consensus (c : BftConsensus) (input : Int) : Option Int :=
  (c.voteResults input).dedup.find?
    (fun v => decide (c.threshold ≤ (c.voteResults input).count v))

/-! ### Definitions: byzantine_simulation.rs -/

/-- `enum FailureMode` from byzantine_simulation.rs. -/
inductive FailureMode where
  | Hallucination
  | Crash
  | Corruption
  | Success
deriving DecidableEq

/-- `struct Agent { id: usize, failure_rate: f64 }`; the rate is modelled as
an exact rational. -/
structure Agent where
  id : Nat
  failure_rate : ℚ

/-- `Agent::new` from byzantine_simulation.rs: stores both fields with no
validation whatsoever. -/
def Agent.new (id : Nat) (failure_rate : ℚ) : Agent :=
  { id := id, failure_rate := failure_rate }

/-- `Agent::execute` from byzantine_simulation.rs.  The hash
`(task_id * 31 + id * 17 + seed * 7) % 10000` is divided by 10000 and compared
with the failure rate; on failure a second hash
`(task_id * 13 + id * 19) % 100` (note: no seed) selects the mode from the
fixed 60/25/15 split.  `usize` arithmetic is translated directly to `Nat`
(the demo's operands never overflow), and the `f64` divisions are exact here. -/
def Agent.execute (a : Agent) (task_id seed : Nat) : Bool × FailureMode :=
  let hash : ℚ := (((task_id * 31 + a.id * 17 + seed * 7) % 10000 : Nat) : ℚ) / 10000
  if hash < a.failure_rate then
    let mode_hash : ℚ := (((task_id * 13 + a.id * 19) % 100 : Nat) : ℚ) / 100
    let failure_mode :=
      if mode_hash < 60 / 100 then FailureMode.Hallucination
      else if mode_hash < 85 / 100 then FailureMode.Corruption
      else FailureMode.Crash
    (false, failure_mode)
  else
    (true, FailureMode.Success)

/-! ### Definitions: dual_model.rs -/

/-- `struct SimulatedLLM { name: String, error_rate: f64, seed: u64 }`. -/
structure SimulatedLLM where
  name : String
  error_rate : ℚ
  seed : Nat

/-- `SimulatedLLM::new` from dual_model.rs: stores all fields with no
validation. -/
def SimulatedLLM.new (name : String) (error_rate : ℚ) (seed : Nat) : SimulatedLLM :=
  { name := name, error_rate := error_rate, seed := seed }

/-- `struct CodeGenResult` from dual_model.rs. -/
structure CodeGenResult where
  code : String
  is_correct : Bool
  model : String

/-- `SimulatedLLM::generate_code` from dual_model.rs.  The receiver is
`&mut self`: the call first advances the internal LCG state
`self.seed = self.seed.wrapping_mul(1103515245).wrapping_add(12345)` and then
derives `rand_val` from the new seed; modelled by returning the updated
receiver alongside the result.  `u64::MAX as f64` evaluates to 2^64, used as
the divisor. -/
def SimulatedLLM.generate_code (m : SimulatedLLM) (task : String) :
    CodeGenResult × SimulatedLLM :=
  let seed1 := (m.seed * 1103515245 + 12345) % 18446744073709551616
  let rand_val : ℚ := (seed1 : ℚ) / 18446744073709551616
  let m1 : SimulatedLLM := { m with seed := seed1 }
  let has_error := rand_val < m.error_rate
  if has_error then
    ({ code := "// HALLUCINATED: " ++ task ++ " - BUGGY CODE",
       is_correct := false, model := m.name }, m1)
  else
    ({ code := "fn " ++ task ++ "() \x7b /* correct implementation */ \x7d",
       is_correct := true, model := m.name }, m1)

/-! ### Definitions: the F64 value model and the statistics code -/

/-- A tagged model of `f64` values for the statistics claims: finite values
are exact rationals (rounding abstracted), plus NaN and the two infinities.
Signed zero is collapsed to 0. -/
inductive F64 where
  | fin (q : ℚ)
  | nan
  | inf
  | neginf
deriving DecidableEq

/-- IEEE-754 division on `F64`: 0/0 is NaN, x/0 is ±Inf, NaN propagates;
finite quotients are kept exact. -/
def F64.div : F64 → F64 → F64
  | nan, _ => nan
  | _, nan => nan
  | fin a, fin b =>
      if b = 0 then (if a = 0 then nan else if 0 < a then inf else neginf)
      else fin (a / b)
  | inf, fin b => if 0 ≤ b then inf else neginf
  | neginf, fin b => if 0 ≤ b then neginf else inf
  | fin _, inf => fin 0
  | fin _, neginf => fin 0
  | inf, inf => nan
  | inf, neginf => nan
  | neginf, inf => nan
  | neginf, neginf => nan

/-- IEEE-754 subtraction on `F64`: NaN propagates; finite differences exact. -/
def F64.sub : F64 → F64 → F64
  | nan, _ => nan
  | _, nan => nan
  | fin a, fin b => fin (a - b)
  | inf, fin _ => inf
  | neginf, fin _ => neginf
  | fin _, inf => neginf
  | fin _, neginf => inf
  | inf, inf => nan
  | neginf, neginf => nan
  | inf, neginf => inf
  | neginf, inf => neginf

/-- IEEE-754 multiplication on `F64`: NaN propagates, 0 · ±Inf is NaN;
finite products exact. -/
def F64.mul : F64 → F64 → F64
  | nan, _ => nan
  | _, nan => nan
  | fin a, fin b => fin (a * b)
  | inf, fin b => if b = 0 then nan else if 0 < b then inf else neginf
  | fin a, inf => if a = 0 then nan else if 0 < a then inf else neginf
  | neginf, fin b => if b = 0 then nan else if 0 < b then neginf else inf
  | fin a, neginf => if a = 0 then nan else if 0 < a then neginf else inf
  | inf, inf => inf
  | neginf, neginf => inf
  | inf, neginf => neginf
  | neginf, inf => neginf

/-- `struct SimulationResult` from byzantine_simulation.rs; the
`HashMap<FailureMode, usize>` of failure counts is an association list. -/
structure SimulationResult where
  total_tasks : Nat
  successes : Nat
  failures : List (FailureMode × Nat)

/-- `SimulationResult::success_rate`:
`self.successes as f64 / self.total_tasks as f64` — an unguarded division. -/
def SimulationResult.success_rate (r : SimulationResult) : F64 :=
  F64.div (F64.fin (r.successes : ℚ)) (F64.fin (r.total_tasks : ℚ))

/-- `SimulationResult::failure_rate`: `1.0 - self.success_rate()`. -/
def SimulationResult.failure_rate (r : SimulationResult) : F64 :=
  F64.sub (F64.fin 1) r.success_rate

/-- `SimulationResult::total_failures`: sum of the failure counts. -/
def SimulationResult.total_failures (r : SimulationResult) : Nat :=
  (r.failures.map (fun p => p.2)).sum

/-- The comparative failure-reduction statistic, computed identically by
reliability_test.rs main (`((single_results.failed - dual_results.failed) as
f64 / single_results.failed as f64) * 100.0`, lines 260-261) and
byzantine_simulation.rs main (same formula over `total_failures()`, lines
249-250).  The `usize` subtraction precedes the cast, so a candidate with
more failures than the baseline panics in debug builds — modelled by `none`;
no zero-denominator guard exists. -/
def failure_reduction (baseline_failed candidate_failed : Nat) : Option F64 :=
  if candidate_failed ≤ baseline_failed then
    some (F64.mul
      (F64.div (F64.fin ((baseline_failed - candidate_failed : Nat) : ℚ))
        (F64.fin (baseline_failed : ℚ)))
      (F64.fin 100))
  else none

/-- `reliability_multiplier = dual_results.pass_rate / single_results.pass_rate`
from reliability_test.rs main (line 262) — an unguarded division. -/
def reliability_multiplier (candidate_rate baseline_rate : F64) : F64 :=
  F64.div candidate_rate baseline_rate

/-! ### Definitions: reliability_test.rs systems -/

/-- `f64 % 1.0` with the nonnegative dividends used by reliability_test.rs:
the fractional part. -/
def fract (q : ℚ) : ℚ := q - ⌊q⌋

/-- `struct TestCase` from reliability_test.rs. -/
structure TestCase where
  id : Nat
  input : String
  expected_output : String
  complexity : Nat

/-- `struct ModelResult` from reliability_test.rs. -/
structure ModelResult where
  test_case_id : Nat
  output : String
  passed : Bool
  execution_time_us : Nat

/-- `struct SingleModelSystem { base_failure_rate: f64 }`. -/
structure SingleModelSystem where
  base_failure_rate : ℚ

/-- `SingleModelSystem::new`: base failure rate 0.13. -/
def SingleModelSystem.new : SingleModelSystem := { base_failure_rate := 13/100 }

/-- `SingleModelSystem::execute` from reliability_test.rs: complexity raises
the failure rate (capped at 0.95), a deterministic hash of (id, seed) decides
the outcome. -/
def SingleModelSystem.execute (m : SingleModelSystem) (tc : TestCase) (seed : Nat) :
    ModelResult :=
  let complexity_penalty : ℚ := ((tc.complexity : ℚ) - 1) * (5/100)
  let adjusted_failure_rate : ℚ := min (m.base_failure_rate + complexity_penalty) (95/100)
  let hash : ℚ := fract (((tc.id * 31 + seed * 17 : Nat) : ℚ) / 1000)
  let passed : Bool := decide (hash ≥ adjusted_failure_rate)
  let output := if passed then tc.expected_output
    else "INCORRECT: " ++ tc.expected_output ++ "_hallucinated"
  { test_case_id := tc.id, output := output, passed := passed,
    execution_time_us := 1500 + tc.complexity * 200 }

/-- `struct DualModelSystem { model_a_failure_rate: f64, model_b_failure_rate: f64 }`. -/
structure DualModelSystem where
  model_a_failure_rate : ℚ
  model_b_failure_rate : ℚ

/-- `DualModelSystem::new`: both model rates 0.13 (model A identical to the
single system). -/
def DualModelSystem.new : DualModelSystem :=
  { model_a_failure_rate := 13/100, model_b_failure_rate := 13/100 }

/-- `DualModelSystem::execute` from reliability_test.rs: model A repeats the
single system's computation verbatim (same hash, same adjusted rate); model B
uses a different hash and a validation bonus of 0.21 (floored at 0.02); the
consensus branch passes whenever model A passes, and otherwise passes exactly
when model B passes. -/
def DualModelSystem.execute (m : DualModelSystem) (tc : TestCase) (seed : Nat) :
    ModelResult :=
  let hash_a : ℚ := fract (((tc.id * 31 + seed * 17 : Nat) : ℚ) / 1000)
  let complexity_penalty : ℚ := ((tc.complexity : ℚ) - 1) * (5/100)
  let adjusted_rate_a : ℚ := min (m.model_a_failure_rate + complexity_penalty) (95/100)
  let result_a : Bool := decide (hash_a ≥ adjusted_rate_a)
  let output_a := if result_a then tc.expected_output
    else "HALLUCINATION_A: " ++ tc.expected_output ++ "_wrong"
  let hash_b : ℚ := fract (((tc.id * 43 + seed * 29 : Nat) : ℚ) / 1000)
  let validation_bonus : ℚ := 21/100
  let adjusted_rate_b : ℚ :=
    max (m.model_b_failure_rate + complexity_penalty - validation_bonus) (2/100)
  let result_b : Bool := decide (hash_b ≥ adjusted_rate_b)
  let fp : String × Bool :=
    if result_a then
      if result_b then (output_a, true) else (output_a, true)
    else
      if result_b then (tc.expected_output, true) else ("CONSENSUS_FAILED", false)
  { test_case_id := tc.id, output := fp.1, passed := fp.2,
    execution_time_us := 3200 + tc.complexity * 400 }

/-! ### Helper theorems -/

/-- Two distinct values cannot together account for more votes than there are
voters. -/
theorem count_add_count_le_length {α : Type} [DecidableEq α] (a b : α) (hab : a ≠ b) :
    ∀ l : List α, l.count a + l.count b ≤ l.length := by
  intro l
  induction l with
  | nil => simp
  | cons x xs ih =>
    simp only [List.count_cons, List.length_cons, beq_iff_eq]
    rcases eq_or_ne x a with hxa | hxa <;> rcases eq_or_ne x b with hxb | hxb
    · exact absurd (hxa.symm.trans hxb) hab
    · simp only [if_pos hxa, if_neg hxb]; omega
    · simp only [if_pos hxb, if_neg hxa]; omega
    · simp only [if_neg hxa, if_neg hxb]; omega

/-- With `3f + 1` voters, at most one value can collect `2f + 1` votes. -/
theorem threshold_winner_unique {f : Nat} {votes : List Int} {a b : Int}
    (hlen : votes.length = 3 * f + 1)
    (ha : 2 * f + 1 ≤ votes.count a) (hb : 2 * f + 1 ≤ votes.count b) : a = b := by
  by_contra hab
  have h := count_add_count_le_length a b hab votes
  omega

/-- Order-independent characterisation of `BftConsensus::consensus`: when the
system has the nominal `3f + 1` nodes, consensus returns `some v` exactly when
`v` collects at least `2f + 1` votes. -/
theorem consensus_eq_some_iff (c : BftConsensus) (input v : Int)
    (hlen : c.nodes.length = 3 * c.fault_tolerance + 1) :
    c.consensus input = some v ↔ c.threshold ≤ (c.voteResults input).count v := by
  unfold BftConsensus.consensus
  constructor
  · intro h
    have hp := List.find?_some h
    simpa using hp
  · intro hv
    have hlen2 : (c.voteResults input).length = 3 * c.fault_tolerance + 1 := by
      simpa [BftConsensus.voteResults] using hlen
    have hpos : 0 < (c.voteResults input).count v := by
      have hth : 0 < c.threshold := Nat.succ_pos _
      omega
    have hvmem : v ∈ c.voteResults input := List.count_pos_iff.mp hpos
    have hvd : v ∈ (c.voteResults input).dedup := List.mem_dedup.mpr hvmem
    cases hfind : (c.voteResults input).dedup.find?
        (fun w => decide (c.threshold ≤ (c.voteResults input).count w)) with
    | none =>
      exfalso
      have hnone := List.find?_eq_none.mp hfind v hvd
      simp at hnone
      omega
    | some w =>
      have hw := List.find?_some hfind
      simp only [decide_eq_true_eq] at hw
      have hwv : w = v := by
        have hw2 : 2 * c.fault_tolerance + 1 ≤ (c.voteResults input).count w := hw
        have hv2 : 2 * c.fault_tolerance + 1 ≤ (c.voteResults input).count v := hv
        exact threshold_winner_unique hlen2 hw2 hv2
      rw [hwv]

/-- The honest vote count is at least the number of non-Byzantine nodes. -/
theorem honest_count_le_vote_count (c : BftConsensus) (input : Int) :
    c.nodes.countP (fun n => !n.is_byzantine) ≤
      (c.voteResults input).count (i32wrap (input * 2)) := by
  have hmap : (c.voteResults input).count (i32wrap (input * 2)) =
      c.nodes.countP (fun n => n.process input == i32wrap (input * 2)) := by
    simp [BftConsensus.voteResults, List.count, List.countP_map, Function.comp_def]
  rw [hmap]
  refine List.countP_mono_left ?_
  intro n _ hb
  simp only [Bool.not_eq_eq_eq_not, Bool.not_true] at hb
  simp [Node.process, hb]

/-- Pointwise dominance: whenever the single system passes a test case, the
dual system passes it too (model A's computation is repeated verbatim). -/
theorem dual_pointwise (tc : TestCase) (seed : Nat)
    (h : (SingleModelSystem.new.execute tc seed).passed = true) :
    (DualModelSystem.new.execute tc seed).passed = true := by
  simp only [SingleModelSystem.execute, SingleModelSystem.new] at h
  simp only [DualModelSystem.execute, DualModelSystem.new]
  split
  · split <;> rfl
  · rename_i hfalse
    rw [h] at hfalse
    exact absurd rfl hfalse

/-- Suite-level corollary of `dual_pointwise`: the dual system's pass count
is at least the single system's on any suite. -/
theorem dual_suite (suite : List TestCase) (seed : Nat) :
    suite.countP (fun tc => (SingleModelSystem.new.execute tc seed).passed) ≤
      suite.countP (fun tc => (DualModelSystem.new.execute tc seed).passed) :=
  List.countP_mono_left (fun tc _ h => dual_pointwise tc seed h)

/-! ### Claim theorems -/

/-- C1: Majority correctness of BFT consensus — in a system with fault
tolerance `f` and `3f + 1` nodes, if at most `f` nodes are Byzantine (all of
which answer the same fixed wrong value `input * 2 + 999`) and the remaining
at-least-`2f + 1` honest nodes answer the identical correct value
`input * 2`, then `consensus` returns `Some` of the honest value for every
input. -/
theorem consensus_majority_correct (c : BftConsensus) (f : Nat) (input : Int)
    (hft : c.fault_tolerance = f)
    (hlen : c.nodes.length = 3 * f + 1)
    (hbyz : (c.nodes.filter (fun n => n.is_byzantine)).length ≤ f) :
    c.consensus input = some (i32wrap (input * 2)) := by
  have hlen' : c.nodes.length = 3 * c.fault_tolerance + 1 := by rw [hft]; exact hlen
  rw [consensus_eq_some_iff c input _ hlen']
  have hsplit := List.length_eq_countP_add_countP (fun n : Node => n.is_byzantine) c.nodes
  have hfilter : (c.nodes.filter (fun n => n.is_byzantine)).length =
      c.nodes.countP (fun n => n.is_byzantine) := (List.countP_eq_length_filter _ _).symm
  have hnotbyz : c.nodes.countP (fun n => decide ¬ n.is_byzantine = true) =
      c.nodes.countP (fun n => !n.is_byzantine) := by
    apply List.countP_congr
    intro n _
    simp
  have hhon := honest_count_le_vote_count c input
  simp only [BftConsensus.threshold]
  omega

/-- Witness for `consensus_majority_correct`: the `f = 1` system with node 0
Byzantine (the source's own test) reaches consensus on `10 * 2 = 20`. -/
theorem consensus_majority_correct_witness :
    ((BftConsensus.new 1).set_byzantine [0]).consensus 10 = some 20 := by
  have h := consensus_majority_correct ((BftConsensus.new 1).set_byzantine [0]) 1 10
    (by decide) (by decide) (by decide)
  rw [h]
  decide

/-- C2: Uniqueness of the threshold winner — for every fault tolerance `f`
and every assignment of one vote to each of the `3f + 1` nodes, at most one
distinct value can accumulate `2f + 1` votes; consequently the result of
`BftConsensus::consensus` is exactly characterised by the tally function
alone, independent of the order in which the vote map is scanned, so no
tie-break logic is needed. -/
theorem consensus_winner_unique :
    (∀ (f : Nat) (votes : List Int) (a b : Int),
        votes.length = 3 * f + 1 →
        2 * f + 1 ≤ votes.count a → 2 * f + 1 ≤ votes.count b → a = b) ∧
    (∀ (c : BftConsensus) (input v : Int),
        c.nodes.length = 3 * c.fault_tolerance + 1 →
        (c.consensus input = some v ↔ c.threshold ≤ (c.voteResults input).count v)) :=
  ⟨fun _ _ _ _ hlen ha hb => threshold_winner_unique hlen ha hb,
   fun c input v hlen => consensus_eq_some_iff c input v hlen⟩

/-- Witness for `consensus_winner_unique` at concrete inputs: four votes
`[5, 5, 5, 7]` with threshold 3 name a unique winner, and the `f = 1` system
on input 21 is characterised by its tally of the honest value 42. -/
theorem consensus_winner_unique_witness :
    (5 : Int) = 5 ∧
    ((BftConsensus.new 1).consensus 21 = some 42 ↔
      (BftConsensus.new 1).threshold ≤ ((BftConsensus.new 1).voteResults 21).count 42) :=
  ⟨consensus_winner_unique.1 1 [5, 5, 5, 7] 5 5 (by decide) (by decide) (by decide),
   consensus_winner_unique.2 (BftConsensus.new 1) 21 42 (by decide)⟩

/-- C3 counterexample: the claim "for every agent model, execute is a pure
function … and no internal counter or state advances implicitly between
calls" is false for `SimulatedLLM::generate_code` (one of the claim's cited
symbols): a single call to the Claude model of the source (`error_rate 0.23`,
`seed 12345`) advances the internal LCG seed, so the state after the call
differs from the state before it. -/
theorem llm_state_advances_counterexample :
    ((SimulatedLLM.new "Claude" (23/100) 12345).generate_code "sort_array").2.seed ≠
      (SimulatedLLM.new "Claude" (23/100) 12345).seed := by
  norm_num [SimulatedLLM.generate_code, SimulatedLLM.new]

/-- C3 (amended): `Agent::execute` is a pure function of
(id, failure_rate, task_id, seed): any two agents agreeing on id and
failure_rate return identical (success, failure-mode) results for every
(task_id, seed), and no state advances between calls; by contrast
`SimulatedLLM::generate_code` advances its internal PRNG seed on every call
(see `llm_state_advances_counterexample`). -/
theorem agent_execute_deterministic (a b : Agent) (task_id seed : Nat)
    (hid : a.id = b.id) (hrate : a.failure_rate = b.failure_rate) :
    a.execute task_id seed = b.execute task_id seed := by
  obtain ⟨ia, ra⟩ := a
  obtain ⟨ib, rb⟩ := b
  simp only at hid hrate
  subst hid
  subst hrate
  rfl

/-- Witness for `agent_execute_deterministic`: two calls on the test agent
of the source (`id 0`, `failure_rate 0.3`) with identical task and seed give
identical results. -/
theorem agent_execute_deterministic_witness :
    (Agent.new 0 (3/10)).execute 42 100 = (Agent.new 0 (3/10)).execute 42 100 :=
  agent_execute_deterministic (Agent.new 0 (3/10)) (Agent.new 0 (3/10)) 42 100 rfl rfl

/-- C4: Quorum formula — `BftConsensus::new f` creates exactly `3f + 1`
nodes with acceptance threshold `2f + 1`, for every `f ≥ 0` (with `f = 0` a
valid boundary), and `consensus` accepts a value only when it collects at
least `2f + 1` matching votes.  Negative `f` is unrepresentable: the source
takes `fault_tolerance: usize`, so rejection happens at the type level,
mirrored here by `f : Nat`. -/
theorem quorum_formula :
    (∀ f : Nat, (BftConsensus.new f).nodes.length = 3 * f + 1 ∧
        (BftConsensus.new f).threshold = 2 * f + 1) ∧
    (∀ (c : BftConsensus) (input v : Int),
        c.consensus input = some v →
        2 * c.fault_tolerance + 1 ≤ (c.voteResults input).count v) := by
  constructor
  · intro f
    constructor
    · simp [BftConsensus.new]
    · rfl
  · intro c input v h
    have hp := List.find?_some h
    simpa [BftConsensus.threshold] using hp

/-- Witness for `quorum_formula`: the boundary `f = 0` gives one node; the
`f = 1` system accepted 42 on input 21, so 42 must have collected at least 3
votes. -/
theorem quorum_formula_witness :
    ((BftConsensus.new 0).nodes.length = 3 * 0 + 1 ∧
      (BftConsensus.new 0).threshold = 2 * 0 + 1) ∧
    2 * (BftConsensus.new 1).fault_tolerance + 1 ≤
      ((BftConsensus.new 1).voteResults 21).count 42 :=
  ⟨quorum_formula.1 0, quorum_formula.2 (BftConsensus.new 1) 21 42 (by decide)⟩

/-- C5 counterexample: the claim "construction succeeds exactly when
failure_rate lies in [0,1], and out-of-range rates are rejected" is false at
failure_rate = 2: both `Agent::new` and `SimulatedLLM::new` construct
successfully and store the out-of-range rate verbatim (neither rejected nor
clamped into range). -/
theorem failure_rate_unvalidated_counterexample :
    (Agent.new 0 2).failure_rate = 2 ∧
    (SimulatedLLM.new "M" 2 1).error_rate = 2 ∧
    ¬ ((0 : ℚ) ≤ 2 ∧ (2 : ℚ) ≤ 1) := by
  refine ⟨rfl, rfl, ?_⟩
  norm_num

/-- C5 (amended): `Agent::new` and `SimulatedLLM::new` perform no validation
at all — construction succeeds for every failure_rate, in range or not, and
stores it verbatim (so out-of-range rates are indeed never silently clamped,
but neither are they rejected). -/
theorem construction_stores_rate_verbatim :
    ∀ (id seed : Nat) (r : ℚ) (name : String),
      (Agent.new id r).failure_rate = r ∧ (Agent.new id r).id = id ∧
      (SimulatedLLM.new name r seed).error_rate = r :=
  fun _ _ _ _ => ⟨rfl, rfl, rfl⟩

/-- C6 counterexample: the claim that zero-denominator comparative statistics
are reported as an explicit "undefined" value is false: with a baseline of 0
failures (candidate also 0) the failure-reduction formula of
reliability_test.rs/byzantine_simulation.rs evaluates to NaN, and with a
baseline pass rate of 0 the reliability multiplier evaluates to +Infinity —
both propagate into the printed report. -/
theorem comparative_stats_counterexample :
    failure_reduction 0 0 = some F64.nan ∧
    reliability_multiplier (F64.fin (1/2)) (F64.fin 0) = F64.inf := by
  constructor
  · simp [failure_reduction, F64.div, F64.mul]
  · norm_num [reliability_multiplier, F64.div]

/-- C6 (amended): the comparative statistics carry no zero-denominator
guard.  When the baseline failure count is zero the failure reduction is NaN
(candidate failures zero) or a debug-mode panic on `usize` underflow
(candidate failures positive), and a zero baseline pass rate makes the
multiplier Inf or NaN; only when the baseline failures are positive (with
candidate ≤ baseline) and the baseline rate is a nonzero finite value are
the statistics ordinary finite numbers. -/
theorem comparative_stats_guarded (b c : Nat) (x y : ℚ)
    (hb : 0 < b) (hc : c ≤ b) (hy : y ≠ 0) :
    (∃ q : ℚ, failure_reduction b c = some (F64.fin q)) ∧
    (∃ q : ℚ, reliability_multiplier (F64.fin x) (F64.fin y) = F64.fin q) := by
  have hb0 : ((b : Nat) : ℚ) ≠ 0 := by
    have : b ≠ 0 := by omega
    exact_mod_cast this
  constructor
  · refine ⟨((b - c : Nat) : ℚ) / (b : ℚ) * 100, ?_⟩
    simp [failure_reduction, if_pos hc, F64.div, F64.mul, hb0]
  · exact ⟨x / y, by simp [reliability_multiplier, F64.div, hy]⟩

/-- Witness for `comparative_stats_guarded` at baseline 10 failures,
candidate 3, multiplier 0.98 / 0.77. -/
theorem comparative_stats_guarded_witness :
    (∃ q : ℚ, failure_reduction 10 3 = some (F64.fin q)) ∧
    (∃ q : ℚ, reliability_multiplier (F64.fin (98/100)) (F64.fin (77/100)) = F64.fin q) :=
  comparative_stats_guarded 10 3 (98/100) (77/100) (by decide) (by decide) (by norm_num)

/-- C7 counterexample: the claim that `success_rate()`/`failure_rate()`
return an explicit "undefined" value when `total_tasks == 0` is false: on
the empty result both evaluate to NaN (the unguarded `0.0 / 0.0`). -/
theorem zero_tasks_counterexample :
    (SimulationResult.mk 0 0 []).success_rate = F64.nan ∧
    (SimulationResult.mk 0 0 []).failure_rate = F64.nan := by
  constructor
  · simp [SimulationResult.success_rate, F64.div]
  · simp [SimulationResult.failure_rate, SimulationResult.success_rate, F64.div, F64.sub]

/-- C7 (amended): with `total_tasks == 0` (and `successes == 0`, as every
code path maintains) both rates evaluate to NaN — no panic, but no explicit
undefined value either; for `total_tasks > 0` both rates are ordinary finite
values. -/
theorem zero_tasks_boundary (r : SimulationResult) :
    (r.total_tasks = 0 → r.successes = 0 →
      r.success_rate = F64.nan ∧ r.failure_rate = F64.nan) ∧
    (0 < r.total_tasks →
      (∃ q : ℚ, r.success_rate = F64.fin q) ∧ (∃ q : ℚ, r.failure_rate = F64.fin q)) := by
  constructor
  · intro ht hs
    constructor
    · simp [SimulationResult.success_rate, ht, hs, F64.div]
    · simp [SimulationResult.failure_rate, SimulationResult.success_rate, ht, hs,
        F64.div, F64.sub]
  · intro ht
    have h0 : ((r.total_tasks : Nat) : ℚ) ≠ 0 := by
      have : r.total_tasks ≠ 0 := by omega
      exact_mod_cast this
    refine ⟨⟨(r.successes : ℚ) / (r.total_tasks : ℚ), ?_⟩,
      ⟨1 - (r.successes : ℚ) / (r.total_tasks : ℚ), ?_⟩⟩
    · simp [SimulationResult.success_rate, F64.div, h0]
    · simp [SimulationResult.failure_rate, SimulationResult.success_rate,
        F64.div, F64.sub, h0]

/-- Witness for `zero_tasks_boundary`: the empty result yields NaN, and a
10-task result with 7 successes yields a finite rate. -/
theorem zero_tasks_boundary_witness :
    (SimulationResult.mk 0 0 []).success_rate = F64.nan ∧
    (∃ q : ℚ, (SimulationResult.mk 10 7 []).success_rate = F64.fin q) :=
  ⟨((zero_tasks_boundary (SimulationResult.mk 0 0 [])).1 rfl rfl).1,
   ((zero_tasks_boundary (SimulationResult.mk 10 7 [])).2 (by decide)).1⟩

/-- C9: Pointwise dominance of the dual system over the single system — for
every TestCase and every seed, if `SingleModelSystem::execute` passes then
`DualModelSystem::execute` passes (model A repeats the identical hash and
base failure rate, and the dual system passes whenever model A passes);
consequently on any test suite the dual system's pass count is at least the
single system's. -/
theorem dual_dominates_single :
    (∀ (tc : TestCase) (seed : Nat),
        (SingleModelSystem.new.execute tc seed).passed = true →
        (DualModelSystem.new.execute tc seed).passed = true) ∧
    (∀ (suite : List TestCase) (seed : Nat),
        suite.countP (fun tc => (SingleModelSystem.new.execute tc seed).passed) ≤
          suite.countP (fun tc => (DualModelSystem.new.execute tc seed).passed)) :=
  ⟨fun tc seed h => dual_pointwise tc seed h, fun suite seed => dual_suite suite seed⟩

/-- Witness for `dual_dominates_single`: test case 0 with complexity 1 at
seed 42 (the benchmark seed) passes the single system, hence the dual one. -/
theorem dual_dominates_single_witness :
    (DualModelSystem.new.execute (TestCase.mk 0 "t" "out" 1) 42).passed = true :=
  dual_dominates_single.1 (TestCase.mk 0 "t" "out" 1) 42
    (by norm_num [SingleModelSystem.execute, SingleModelSystem.new, fract])

/-- C10: Seed-noninterference of the failure mode — for every agent and
task, any two seeds whose executions both fail yield the identical
FailureMode: the mode hash `(task_id * 13 + id * 19) % 100` never reads the
seed. -/
theorem failure_mode_seed_independent (a : Agent) (task_id s1 s2 : Nat)
    (h1 : (a.execute task_id s1).1 = false) (h2 : (a.execute task_id s2).1 = false) :
    (a.execute task_id s1).2 = (a.execute task_id s2).2 := by
  simp only [Agent.execute] at h1 h2 ⊢
  split at h1 <;> split at h2 <;> simp_all

/-- Witness for `failure_mode_seed_independent`: the always-failing agent
(`failure_rate 1.0`, the source's distribution test) fails task 0 under seeds
0 and 1 with the same mode. -/
theorem failure_mode_seed_independent_witness :
    ((Agent.new 0 1).execute 0 0).2 = ((Agent.new 0 1).execute 0 1).2 :=
  failure_mode_seed_independent (Agent.new 0 1) 0 0 1
    (by norm_num [Agent.execute, Agent.new])
    (by norm_num [Agent.execute, Agent.new])

end Ch04
